import Mathlib

/-!
Shallow embedding of the core of `idiokit/threado.py`: the `Reg` stream
base class, `Channel`, the `_Pipeable` pipe-set, `PipePair`, `Any`, the
`pipe` combinator, `run`, and the generator-task step machinery.

Python objects are modelled as explicit state records; identity tokens
(`object()` sentinels, activity ids, callback handles) are modelled as
natural numbers drawn from an explicit fresh-token supply.  All
operations are sequential (the runtime is a single-threaded dispatcher;
locks only delimit critical sections, which the sequential model makes
atomic by construction).
-/

namespace Threado

/-- Python values transported in `args` tuples: ints, None, tuples,
the `Finished` exception class and its instances, generic exception
types/values, and references to streams (used by `Any` tagging). -/
inductive PyVal where
  | int : Int → PyVal
  | noneV : PyVal
  | tuple : List PyVal → PyVal
  | finishedType : PyVal
  | finishedExc : List PyVal → PyVal
  | excType : String → PyVal
  | excVal : String → List PyVal → PyVal
  | streamRef : Nat → PyVal

/-- The unit on the wire: the `(final, throw, args)` triple. -/
structure Item where
  final : Bool
  throw : Bool
  args : List PyVal

/-- `peel_args`: empty tuple becomes None, a 1-tuple its sole element,
anything longer stays a tuple. -/
def peel_args : List PyVal → PyVal
  | [] => .noneV
  | [a] => a
  | args => .tuple args

/-- State of the `Reg` base class: activity id `_id` (None when
quiescent), latched terminal `_result`, and the two callback sets.
Callbacks are identified by handles; the sets are kept as lists of
distinct handles. -/
structure RegState where
  _id : Option Nat
  _result : Option (Bool × List PyVal)
  message_callbacks : List Nat
  finish_callbacks : List Nat

/-- A fresh `Reg`: `_id = None`, `_result = None`, empty callback sets. -/
def RegState.fresh : RegState := ⟨none, none, [], []⟩

/-- Result of `Reg.signal_activity`: the updated state plus the drained
callback handles that get invoked (message callbacks always, finish
callbacks only when `result` is non-None). -/
structure SignalOut where
  reg : RegState
  fired_msg : List Nat
  fired_fin : List Nat

/-- `Reg.signal_activity(result)`: store `result` into `_result`
(unconditionally), rotate `_id` to a fresh token, drain the message
callbacks; when `result` is non-None also drain the finish callbacks. -/
def signal_activity (s : RegState) (result : Option (Bool × List PyVal))
    (fresh : Nat) : SignalOut :=
  let firedMsg := s.message_callbacks
  if result.isSome then
    ⟨⟨some fresh, result, [], []⟩, firedMsg, s.finish_callbacks⟩
  else
    ⟨⟨some fresh, result, [], s.finish_callbacks⟩, firedMsg, []⟩

/-- Result of `add_message_callback` / `add_finish_callback`: updated
state, the returned registration handle (`None` when the callback fired
synchronously), and whether it fired synchronously. -/
structure AddCbOut where
  reg : RegState
  handle : Option Nat
  fired_now : Bool

/-- `Reg.add_message_callback`: register under the lock when `_id` is
None and return the handle; otherwise invoke synchronously and return
None. -/
def add_message_callback (s : RegState) (h : Nat) : AddCbOut :=
  if s._id.isNone then
    ⟨{ s with message_callbacks := s.message_callbacks ++ [h] }, some h, false⟩
  else
    ⟨s, none, true⟩

/-- `Reg.discard_message_callback`. -/
def discard_message_callback (s : RegState) (h : Option Nat) : RegState :=
  match h with
  | none => s
  | some h => { s with message_callbacks := s.message_callbacks.filter (· ≠ h) }

/-- `Reg.add_finish_callback`: register when `_result` is None and return
the handle; otherwise invoke synchronously and return None. -/
def add_finish_callback (s : RegState) (h : Nat) : AddCbOut :=
  if s._result.isNone then
    ⟨{ s with finish_callbacks := s.finish_callbacks ++ [h] }, some h, false⟩
  else
    ⟨s, none, true⟩

/-- `Reg.discard_finish_callback`. -/
def discard_finish_callback (s : RegState) (h : Option Nat) : RegState :=
  match h with
  | none => s
  | some h => { s with finish_callbacks := s.finish_callbacks.filter (· ≠ h) }

/-- `Reg.has_result`: whether a terminal result has been latched. -/
def has_result (s : RegState) : Bool := s._result.isSome

/-- `Reg.result_raw`: the latched `(throw, args)` pair, or None when the
Python code would raise `NotFinished`. -/
def result_raw (s : RegState) : Option (Bool × List PyVal) := s._result

/-- State of a `Channel`: the inherited `Reg` state plus the FIFO of
items, front at the head of the list. -/
structure ChannelState where
  reg : RegState
  queue : List Item

/-- A fresh `Channel`. -/
def ChannelState.fresh : ChannelState := ⟨RegState.fresh, []⟩

/-- Result of a channel mutation: new channel state plus the drained
message / finish callback handles fired by the embedded
`signal_activity`, if any. -/
structure ChanOut where
  chan : ChannelState
  fired_msg : List Nat
  fired_fin : List Nat

/-- `Channel._push`: drop silently when the queue tail is terminal;
append; when the new item is terminal signal activity with the result,
when the queue just became non-empty signal activity with None,
otherwise do nothing. -/
def Channel_push (c : ChannelState) (final throwB : Bool) (args : List PyVal)
    (fresh : Nat) : ChanOut :=
  if (c.queue.getLast?.map Item.final).getD false then ⟨c, [], []⟩
  else
    let queue := c.queue ++ [⟨final, throwB, args⟩]
    if final then
      let out := signal_activity c.reg (some (throwB, args)) fresh
      ⟨⟨out.reg, queue⟩, out.fired_msg, out.fired_fin⟩
    else if queue.length = 1 then
      let out := signal_activity c.reg none fresh
      ⟨⟨out.reg, queue⟩, out.fired_msg, out.fired_fin⟩
    else
      ⟨⟨c.reg, queue⟩, [], []⟩

/-- `Channel.send(*values)`. -/
def Channel_send (c : ChannelState) (values : List PyVal) (fresh : Nat) : ChanOut :=
  Channel_push c false false values fresh

/-- `Channel.throw(exc, tb)`: pushes the terminal failure triple
`(type(exc), exc, tb)`. -/
def Channel_throw (c : ChannelState) (excInfo : List PyVal) (fresh : Nat) : ChanOut :=
  Channel_push c true true excInfo fresh

/-- `Channel.finish(*args)`. -/
def Channel_finish (c : ChannelState) (args : List PyVal) (fresh : Nat) : ChanOut :=
  Channel_push c true false args fresh

/-- `Channel._next_raw`: pop the head; a terminal head is re-appended
(sticky terminal). -/
def Channel_next_raw_inner (c : ChannelState) : Option Item × ChannelState :=
  match c.queue with
  | [] => (none, c)
  | it :: rest =>
    if it.final then (some it, { c with queue := rest ++ [it] })
    else (some it, { c with queue := rest })

/-- `Reg.next_raw` as inherited by `Channel`: None when `_id` is None;
otherwise read `_next_raw`; on None clear `_id` if unchanged; on a
terminal item latch `_result` (re-arming `_id` if it was cleared
meanwhile). -/
def Channel_next_raw (c : ChannelState) (fresh : Nat) : Option Item × ChannelState :=
  match c.reg._id with
  | none => (none, c)
  | some tok =>
    match Channel_next_raw_inner c with
    | (none, c) =>
      if c.reg._id = some tok then (none, { c with reg := { c.reg with _id := none } })
      else (none, c)
    | (some it, c) =>
      if it.final then
        let reg := { c.reg with _result := some (it.throw, it.args) }
        let reg := if reg._id = none then { reg with _id := some fresh } else reg
        (some it, { c with reg := reg })
      else (some it, c)

/-- The channel state after `ch = Channel(); ch.send(1); ch.send(2);
ch.finish()`. -/
def c5_state : ChannelState :=
  let c := (Channel_send ChannelState.fresh [.int 1] 0).chan
  let c := (Channel_send c [.int 2] 1).chan
  (Channel_finish c [] 2).chan

/-- The three successive reads of `c5_state` and a fourth, post-terminal
read. -/
def c5_read1 : Option Item × ChannelState := Channel_next_raw c5_state 10
def c5_read2 : Option Item × ChannelState := Channel_next_raw c5_read1.2 11
def c5_read3 : Option Item × ChannelState := Channel_next_raw c5_read2.2 12
def c5_read4 : Option Item × ChannelState := Channel_next_raw c5_read3.2 13

/-- A concrete `Reg` with a latched terminal result (the state of any
stream right after `signal_activity((False, (7,)))` has run). -/
def c1_latched : RegState := ⟨some 0, some (false, [.int 7]), [], []⟩

/-- `Channel._next_raw` never touches the inherited `Reg` fields. -/
theorem Channel_next_raw_inner_reg (c : ChannelState) :
    (Channel_next_raw_inner c).2.reg = c.reg := by
  unfold Channel_next_raw_inner
  rcases c with ⟨reg, _ | ⟨it, rest⟩⟩
  · rfl
  · by_cases hf : it.final <;> simp [hf]

/-- `Channel.next_raw` never clears a latched `_result`. -/
theorem Channel_next_raw_keeps_result (c : ChannelState) (fr : Nat)
    (hc : has_result c.reg = true) :
    has_result (Channel_next_raw c fr).2.reg = true := by
  rcases c with ⟨⟨cid, cres, cmsg, cfin⟩, queue⟩
  rcases cres with _ | r
  · simp [has_result] at hc
  · rcases cid with _ | tok
    · simp [Channel_next_raw, has_result]
    · rcases queue with _ | ⟨it, rest⟩
      · simp [Channel_next_raw, Channel_next_raw_inner, has_result]
      · by_cases hf : it.final <;>
          simp [Channel_next_raw, Channel_next_raw_inner, hf, has_result]

/-- C1 counterexample: `Reg.signal_activity` stores its `result`
argument into `_result` unconditionally, so calling it with a null
result on a stream whose terminal has been latched clears the latched
result: `has_result()` flips back to false, refuting the claim that no
subsequent operation — including a `signal_activity` with a null
result — clears the latched terminal. -/
theorem C1_counterexample :
    has_result c1_latched = true ∧
    has_result (signal_activity c1_latched none 1).reg = false :=
  ⟨rfl, rfl⟩

/-- C1 (amended): once a terminal result has been latched on a `Reg`,
`has_result()` stays true across callback registration and discard,
across any `signal_activity` carrying a non-null result, and across
`Channel.next_raw`; but a `signal_activity` call with a null result
overwrites `_result` with null and resets `has_result()` to false. -/
theorem C1_amended_result_persistence (s : RegState) (hs : has_result s = true) :
    (∀ h, has_result (add_message_callback s h).reg = true) ∧
    (∀ h, has_result (discard_message_callback s h) = true) ∧
    (∀ h, has_result (add_finish_callback s h).reg = true) ∧
    (∀ h, has_result (discard_finish_callback s h) = true) ∧
    (∀ r fr, has_result (signal_activity s (some r) fr).reg = true) ∧
    (∀ fr, has_result (signal_activity s none fr).reg = false) ∧
    (∀ (c : ChannelState) (fr : Nat), has_result c.reg = true →
      has_result (Channel_next_raw c fr).2.reg = true) := by
  obtain ⟨sid, sres, smsg, sfin⟩ := s
  rcases sres with _ | r
  · simp [has_result] at hs
  refine ⟨?_, ?_, ?_, ?_, ?_, ?_, Channel_next_raw_keeps_result⟩
  · intro h
    rcases sid with _ | tok <;> simp [add_message_callback, has_result]
  · intro h
    rcases h with _ | h <;> simp [discard_message_callback, has_result]
  · intro h
    simp [add_finish_callback, has_result]
  · intro h
    rcases h with _ | h <;> simp [discard_finish_callback, has_result]
  · intro r' fr
    simp [signal_activity, has_result]
  · intro fr
    simp [signal_activity, has_result]

/-- C1 witness: the amended persistence properties hold at the concrete
latched state `c1_latched`. -/
theorem C1_amended_witness :
    has_result (add_message_callback c1_latched 5).reg = true ∧
    has_result (signal_activity c1_latched (some (true, [])) 2).reg = true :=
  ⟨(C1_amended_result_persistence c1_latched rfl).1 5,
   (C1_amended_result_persistence c1_latched rfl).2.2.2.2.1 (true, []) 2⟩

/-- C5: on a fresh Channel after `send(1); send(2); finish()`, successive
`next_raw` calls return `(False, False, (1,))`, `(False, False, (2,))`,
`(True, False, ())`, and every further `next_raw` returns that same
terminal item again while leaving the channel state fixed; moreover any
push (`send`/`finish`/`throw`) issued once a terminal item sits at the
tail of the queue is silently dropped: the state is unchanged and no
callback fires. -/
theorem C5_channel_fifo_sticky_drop :
    c5_read1.1 = some ⟨false, false, [.int 1]⟩ ∧
    c5_read2.1 = some ⟨false, false, [.int 2]⟩ ∧
    c5_read3.1 = some ⟨true, false, []⟩ ∧
    (∀ fr, (Channel_next_raw c5_read3.2 fr).1 = some ⟨true, false, []⟩ ∧
      (Channel_next_raw c5_read3.2 fr).2 = c5_read3.2) ∧
    (∀ (c : ChannelState) (f t : Bool) (a : List PyVal) (fr : Nat),
      (c.queue.getLast?.map Item.final).getD false = true →
      Channel_push c f t a fr = ⟨c, [], []⟩) := by
  refine ⟨rfl, rfl, rfl, fun fr => ⟨rfl, rfl⟩, ?_⟩
  intro c f t a fr hlast
  unfold Channel_push
  simp [hlast]

/-- C5 witness: pushing a value after the terminal of `c5_state` has
been read leaves the channel untouched. -/
theorem C5_witness :
    Channel_push c5_read3.2 false false [.int 9] 99 = ⟨c5_read3.2, [], []⟩ :=
  C5_channel_fifo_sticky_drop.2.2.2.2 c5_read3.2 false false [.int 9] 99 rfl

/-- C4: `Reg.add_message_callback` registered while the activity id is
null fires exactly once at the next `signal_activity` (which drains the
callback set, so it cannot fire again without re-registration); when the
activity id is already non-null at registration time the callback fires
synchronously exactly once during the call and is never stored — no
activity edge is lost in either case. -/
theorem C4_message_callback_exactly_once (s : RegState) (h : Nat)
    (hfresh : h ∉ s.message_callbacks) :
    (s._id = none →
      (add_message_callback s h).handle = some h ∧
      (add_message_callback s h).fired_now = false ∧
      (add_message_callback s h).reg.message_callbacks.count h = 1 ∧
      ∀ r fr,
        (signal_activity (add_message_callback s h).reg r fr).fired_msg.count h = 1 ∧
        h ∉ (signal_activity (add_message_callback s h).reg r fr).reg.message_callbacks) ∧
    (s._id ≠ none →
      (add_message_callback s h).fired_now = true ∧
      (add_message_callback s h).handle = none ∧
      (add_message_callback s h).reg = s) := by
  constructor
  · intro hid
    have hcount : s.message_callbacks.count h = 0 := List.count_eq_zero.mpr hfresh
    refine ⟨?_, ?_, ?_, ?_⟩
    · simp [add_message_callback, hid]
    · simp [add_message_callback, hid]
    · simp [add_message_callback, hid, List.count_append, hcount]
    · intro r fr
      rcases r with _ | r <;>
        simp [add_message_callback, signal_activity, hid, List.count_append, hcount]
  · intro hid
    have hid' : s._id.isNone = false := by
      rcases h' : s._id with _ | tok
      · exact absurd h' hid
      · rfl
    exact ⟨by simp [add_message_callback, hid'], by simp [add_message_callback, hid'],
      by simp [add_message_callback, hid']⟩

/-- C4 witness: registering handle 5 on a fresh quiescent `Reg` stores
it, and the next activity signal fires it exactly once. -/
theorem C4_witness :
    (add_message_callback RegState.fresh 5).handle = some 5 ∧
    (signal_activity (add_message_callback RegState.fresh 5).reg none 7).fired_msg.count 5 = 1 := by
  have H := C4_message_callback_exactly_once RegState.fresh 5 (by simp [RegState.fresh])
  exact ⟨(H.1 rfl).1, ((H.1 rfl).2.2.2 none 7).1⟩

/-- The slice of `PipePair` state that its read-side methods touch: the
inherited `Reg` state, the two finish flags, and the right stream
(instantiated with a `Channel`, whose `next_raw` the pair reads).  The
`left` stream and the internal `input` channel feed the pair's write
side only and are not represented. -/
structure PipePairState where
  reg : RegState
  left_has_result : Bool
  right_has_result : Bool
  right : ChannelState

/-- `PipePair._callback`: just signals activity on the pair. -/
def PipePair_callback (p : PipePairState) (fresh : Nat) : PipePairState :=
  { p with reg := (signal_activity p.reg none fresh).reg }

/-- `PipePair._finish`: signals activity with `right.result_raw()`. -/
def PipePair_finish (p : PipePairState) (fresh : Nat) : PipePairState :=
  { p with reg := (signal_activity p.reg p.right.reg._result fresh).reg }

/-- `PipePair._left_finish_callback`: record that the left stream has a
result; finish the pair once both sides do. -/
def PipePair_left_finish_callback (p : PipePairState) (fresh : Nat) : PipePairState :=
  let p := { p with left_has_result := true }
  if !p.right_has_result then p else PipePair_finish p fresh

/-- `PipePair._next_raw`: read the right stream; on None re-register
`_callback` on it (firing it synchronously when the right stream's
activity id is set) and return None; withhold a terminal item while
the left stream has not finalized; otherwise pass the item through. -/
def PipePair_next_raw_inner (p : PipePairState) (freshTok freshCb freshSig : Nat) :
    Option Item × PipePairState :=
  match Channel_next_raw p.right freshTok with
  | (none, right) =>
    let add := add_message_callback right.reg freshCb
    let p := { p with right := { right with reg := add.reg } }
    let p := if add.fired_now then PipePair_callback p freshSig else p
    (none, p)
  | (some it, right) =>
    if it.final && !p.left_has_result then (none, { p with right := right })
    else (some it, { p with right := right })

/-- C2: a terminal item from the right stream is withheld by
`PipePair._next_raw` while `left_has_result` is false (it returns None);
after `_left_finish_callback` has run, a subsequent read delivers the
right stream's terminal item (which the right channel kept sticky). -/
theorem C2_pipepair_withholds_terminal (p : PipePairState) (it : Item) (tok : Nat)
    (hlhr : p.left_has_result = false)
    (hq : p.right.queue = [it])
    (hf : it.final = true)
    (hid : p.right.reg._id = some tok) :
    (∀ a b c, (PipePair_next_raw_inner p a b c).1 = none) ∧
    (∀ a b c f a' b' c',
      (PipePair_left_finish_callback (PipePair_next_raw_inner p a b c).2 f).left_has_result
        = true ∧
      (PipePair_next_raw_inner
        (PipePair_left_finish_callback (PipePair_next_raw_inner p a b c).2 f) a' b' c').1
        = some it) := by
  obtain ⟨reg, lhr, rhr, ⟨⟨rid, rres, rmsg, rfin⟩, rq⟩⟩ := p
  simp only at hlhr hq hid
  subst hlhr hq hid
  constructor
  · intro a b c
    simp [PipePair_next_raw_inner, Channel_next_raw, Channel_next_raw_inner, hf]
  · intro a b c f a' b' c'
    simp only [PipePair_next_raw_inner, Channel_next_raw, Channel_next_raw_inner, hf,
      PipePair_left_finish_callback, PipePair_finish]
    rcases rhr with _ | _ <;>
      simp [PipePair_next_raw_inner, Channel_next_raw, Channel_next_raw_inner, hf,
        PipePair_left_finish_callback, PipePair_finish, signal_activity]

/-- C2 witness: a concrete pair whose right channel holds a sticky
terminal withholds it, then delivers it after the left finish
callback. -/
theorem C2_witness :
    (PipePair_next_raw_inner
      ⟨RegState.fresh, false, false, ⟨⟨some 0, none, [], []⟩, [⟨true, false, []⟩]⟩⟩
      1 2 3).1 = none ∧
    (PipePair_next_raw_inner
      (PipePair_left_finish_callback
        (PipePair_next_raw_inner
          ⟨RegState.fresh, false, false, ⟨⟨some 0, none, [], []⟩, [⟨true, false, []⟩]⟩⟩
          1 2 3).2 4) 5 6 7).1 = some ⟨true, false, []⟩ := by
  have H := C2_pipepair_withholds_terminal
    ⟨RegState.fresh, false, false, ⟨⟨some 0, none, [], []⟩, [⟨true, false, []⟩]⟩⟩
    ⟨true, false, []⟩ 0 rfl rfl rfl rfl
  exact ⟨H.1 1 2 3, (H.2 1 2 3 4 5 6 7).2⟩

/-- The decision tail of `run(main)`: None while `main` has no latched
terminal (the dispatch loop keeps iterating); once `main.has_result()`,
re-raise the failure triple verbatim or return the peeled args. -/
def run_result (main : RegState) : Option (Except (List PyVal) PyVal) :=
  match main._result with
  | none => none
  | some (throwB, args) => some (if throwB then .error args else .ok (peel_args args))

/-- C8: `run(main)` produces a value exactly when `main.has_result()`;
a latched failure is re-raised with its original `(type, value,
traceback)` triple untouched; a latched success returns its args peeled
(None for an empty tuple, the sole element of a 1-tuple, the tuple
otherwise). -/
theorem C8_run_result (main : RegState) :
    ((run_result main).isSome = has_result main) ∧
    (∀ args, main._result = some (true, args) →
      run_result main = some (.error args)) ∧
    (∀ args, main._result = some (false, args) →
      run_result main = some (.ok (peel_args args))) ∧
    (peel_args [] = .noneV) ∧
    (∀ a, peel_args [a] = a) ∧
    (∀ a b l, peel_args (a :: b :: l) = .tuple (a :: b :: l)) := by
  refine ⟨?_, ?_, ?_, rfl, fun a => rfl, fun a b l => rfl⟩
  · rcases h : main._result with _ | ⟨throwB, args⟩ <;>
      simp [run_result, has_result, h]
  · intro args h
    simp [run_result, h]
  · intro args h
    simp [run_result, h]

/-- C8 witness: a main task latched with failure args re-raises them,
and one latched with the 1-tuple `(3,)` returns `3`. -/
theorem C8_witness :
    run_result ⟨some 0, some (true, [.excType "E", .excVal "E" [], .noneV]), [], []⟩
      = some (.error [.excType "E", .excVal "E" [], .noneV]) ∧
    run_result ⟨some 0, some (false, [.int 3]), [], []⟩ = some (.ok (.int 3)) :=
  ⟨(C8_run_result ⟨some 0, some (true, [.excType "E", .excVal "E" [], .noneV]), [], []⟩).2.1
      [.excType "E", .excVal "E" [], .noneV] rfl,
   (C8_run_result ⟨some 0, some (false, [.int 3]), [], []⟩).2.2.1 [.int 3] rfl⟩

/-- The shape of the stream expression built by the n-ary `pipe`
combinator: leaves are the argument streams, `pair l r` is
`PipePair(l, r)`. -/
inductive StreamTree where
  | leaf : Nat → StreamTree
  | pair : StreamTree → StreamTree → StreamTree
  deriving DecidableEq, Repr

/-- Nesting depth of a stream expression. -/
def StreamTree.depth : StreamTree → Nat
  | .leaf _ => 0
  | .pair l r => max l.depth r.depth + 1

/-- `pipe(first, *rest)`: `first` alone when `rest` is empty, otherwise
`PipePair(pipe(first, *rest[:cut]), pipe(*rest[cut:]))` with
`cut = len(rest) // 2`.  (`rest[cut:]` is never empty since
`cut < len(rest)`; the `[]` fallback branch is unreachable.) -/
def pipe_comb (first : StreamTree) (rest : List StreamTree) : StreamTree :=
  if h : rest = [] then first
  else
    let cut := rest.length / 2
    have hcut : cut < rest.length := by
      have : 0 < rest.length := List.length_pos.mpr h
      omega
    .pair (pipe_comb first (rest.take cut))
      (pipe_comb (rest.get ⟨cut, hcut⟩) (rest.drop (cut + 1)))
termination_by rest.length
decreasing_by
  · simp only [List.length_take]
    omega
  · simp only [List.length_drop]
    omega

/-- `pipe(first)` with no further streams is `first` itself. -/
theorem pipe_comb_nil (first : StreamTree) : pipe_comb first [] = first := by
  rw [pipe_comb.eq_def]
  simp

/-- Unfolding of `pipe_comb` on a non-empty `rest`. -/
theorem pipe_comb_cons (first x : StreamTree) (xs : List StreamTree) :
    pipe_comb first (x :: xs) =
      .pair (pipe_comb first ((x :: xs).take ((x :: xs).length / 2)))
        (pipe_comb ((x :: xs).get ⟨(x :: xs).length / 2, by simp; omega⟩)
          ((x :: xs).drop ((x :: xs).length / 2 + 1))) := by
  rw [pipe_comb.eq_def]
  simp

/-- Midpoint splitting keeps the tree depth within `d` extra levels as
long as `2 ^ d` covers the number of streams combined. -/
theorem pipe_comb_depth_le (m : Nat) :
    ∀ (n : Nat) (first : StreamTree) (rest : List StreamTree), rest.length ≤ n →
      (∀ t ∈ first :: rest, t.depth ≤ m) →
      ∀ d, rest.length + 1 ≤ 2 ^ d → (pipe_comb first rest).depth ≤ m + d := by
  intro n
  induction n with
  | zero =>
    intro first rest hlen hmem d _
    have hrest : rest = [] := List.length_eq_zero.mp (Nat.le_zero.mp hlen)
    subst hrest
    rw [pipe_comb]
    simp only [dif_pos]
    exact le_trans (hmem first (by simp)) (Nat.le_add_right m d)
  | succ n ih =>
    intro first rest hlen hmem d hd
    by_cases hrest : rest = []
    · subst hrest
      rw [pipe_comb]
      simp only [dif_pos]
      exact le_trans (hmem first (by simp)) (Nat.le_add_right m d)
    · have hpos : 0 < rest.length := List.length_pos.mpr hrest
      have hK : 1 ≤ 2 ^ (d - 1) := Nat.one_le_two_pow
      rcases d with _ | d'
      · have h20 : (2 : Nat) ^ 0 = 1 := pow_zero 2
        omega
      · have hpow : 2 ^ (d' + 1) = 2 * 2 ^ d' := by ring
        rw [pipe_comb]
        simp only [dif_neg hrest]
        simp only [StreamTree.depth]
        have hcut : rest.length / 2 < rest.length := by omega
        have hL : (pipe_comb first (rest.take (rest.length / 2))).depth ≤ m + d' := by
          apply ih first _ (by simp [List.length_take]; omega)
          · intro t ht
            rcases List.mem_cons.mp ht with h | h
            · exact hmem t (by simp [h])
            · exact hmem t (List.mem_cons_of_mem _ (List.mem_of_mem_take h))
          · have h1 : 1 ≤ 2 ^ d' := Nat.one_le_two_pow
            simp only [List.length_take]
            rw [hpow] at hd
            omega
        have hR : (pipe_comb (rest.get ⟨rest.length / 2, hcut⟩)
            (rest.drop (rest.length / 2 + 1))).depth ≤ m + d' := by
          apply ih _ _ (by simp [List.length_drop]; omega)
          · intro t ht
            rcases List.mem_cons.mp ht with h | h
            · subst h
              exact hmem _ (List.mem_cons_of_mem _ (List.get_mem rest _ hcut))
            · exact hmem t (List.mem_cons_of_mem _ (List.mem_of_mem_drop h))
          · have h1 : 1 ≤ 2 ^ d' := Nat.one_le_two_pow
            simp only [List.length_drop]
            rw [hpow] at hd
            omega
        omega

/-- C9: the n-ary `pipe` combinator returns its sole argument unchanged,
builds exactly `PipePair(PipePair(a, b), PipePair(c, d))` for four
streams, and — splitting at the midpoint — produces a tree whose
nesting depth is at most `⌈log₂ n⌉` for `n` argument streams. -/
theorem C9_pipe_balanced_tree :
    (∀ a : StreamTree, pipe_comb a [] = a) ∧
    (∀ a b c d : StreamTree,
      pipe_comb a [b, c, d] = .pair (.pair a b) (.pair c d)) ∧
    (∀ (first : StreamTree) (rest : List StreamTree),
      (∀ t ∈ first :: rest, t.depth = 0) →
      (pipe_comb first rest).depth ≤ Nat.clog 2 (rest.length + 1)) := by
  refine ⟨pipe_comb_nil, fun a b c d => ?_, ?_⟩
  · simp [pipe_comb_cons, pipe_comb_nil]
  · intro first rest hmem
    have := pipe_comb_depth_le 0 rest.length first rest le_rfl
      (fun t ht => le_of_eq (hmem t ht)) (Nat.clog 2 (rest.length + 1))
      (Nat.le_pow_clog (by norm_num) _)
    simpa using this

/-- Association-list update for the dictionaries of `_Pipeable`. -/
def assocSet {α : Type} : List (Nat × α) → Nat → α → List (Nat × α)
  | [], k, v => [(k, v)]
  | (k', v') :: rest, k, v =>
    if k' = k then (k, v) :: rest else (k', v') :: assocSet rest k v

/-- Association-list lookup. -/
def alookup {α : Type} : List (Nat × α) → Nat → Option α
  | [], _ => none
  | (k', v) :: rest, k => if k' = k then some v else alookup rest k

/-- Association-list removal (`dict.pop`). -/
def aremove {α : Type} (l : List (Nat × α)) (k : Nat) : List (Nat × α) :=
  l.filter (fun kv => kv.1 ≠ k)

/-- A `_Pipeable` pipe-set together with the store of upstream channels
it reads, indexed by channel id: `pipes` is the upstream ↦ parked-value
mapping (value `none` models Python's `None` placeholder, `some t` a
parked `_id` object or a registered callback handle — both drawn from
the shared fresh-token supply, so they never collide), `pipes_pending`
the FIFO of upstreams with pending data, `final` the latched terminal,
and `reg` the pipe-set's own inherited `Reg` state.  The only message
callbacks ever registered on the upstream channels of this system are
the pipe-set's `_pipe_callback`, so invoking a drained handle of
channel `i` runs `_pipe_callback(i)`. -/
structure PipeSys where
  chans : List (Nat × ChannelState)
  pipes : List (Nat × Option Nat)
  pipes_pending : List Nat
  final : Option Item
  reg : RegState
  supply : Nat

/-- `_Pipeable._pipe_callback(other)`: ignore unknown upstreams; park
`None` for `other`, enqueue it, and signal activity when the pending
queue just became non-empty.  (The pipe-set's own drained message
callbacks belong to external readers and are not tracked here.) -/
def pipe_callback (sys : PipeSys) (other : Nat) : PipeSys :=
  if (alookup sys.pipes other).isNone then sys
  else
    let sys := { sys with pipes := assocSet sys.pipes other none,
                          pipes_pending := sys.pipes_pending ++ [other] }
    if sys.pipes_pending.length > 1 then sys
    else { sys with reg := (signal_activity sys.reg none sys.supply).reg,
                    supply := sys.supply + 1 }

/-- `_Pipeable._pipe(other)`: no-op once final or when already piped;
otherwise add `other`, enqueue it, and signal activity when the pending
queue just became non-empty. -/
def pipe_add (sys : PipeSys) (other : Nat) : PipeSys :=
  if sys.final.isSome then sys
  else if (alookup sys.pipes other).isSome then sys
  else
    let sys := { sys with pipes := assocSet sys.pipes other none,
                          pipes_pending := sys.pipes_pending ++ [other] }
    if sys.pipes_pending.length > 1 then sys
    else { sys with reg := (signal_activity sys.reg none sys.supply).reg,
                    supply := sys.supply + 1 }

/-- `Channel.send` on upstream `i` of the system; every drained message
callback handle was registered by this pipe-set, so each one invokes
`_pipe_callback(i)`. -/
def sys_send (sys : PipeSys) (i : Nat) (values : List PyVal) : PipeSys :=
  match alookup sys.chans i with
  | none => sys
  | some c =>
    let out := Channel_send c values sys.supply
    let sys := { sys with chans := assocSet sys.chans i out.chan,
                          supply := sys.supply + 1 }
    out.fired_msg.foldl (fun s _ => pipe_callback s i) sys

/-- The `while True` loop of `_Pipeable._next_raw`, with explicit fuel
(each iteration pops one pending upstream, so `pipes_pending.length + 1`
fuel always suffices).  Return the latched final when set; with no
pending upstream return None; otherwise read one item from the head
upstream: on None park a fresh `_id` in `pipes`, register
`_pipe_callback` on the upstream (synchronous firing included), keep the
returned handle if the parked `_id` is still in place, else discard the
registration, and loop; on a non-terminal item re-enqueue the upstream
and return it; on a terminal item pop the upstream and its parked
callback, discard the callback from the upstream, rewrite a successful
terminal into `(Finished, Finished(*args), None)` with `throw=True`,
and return the item with `final=False`. -/
def sys_next_raw_loop : Nat → PipeSys → Option Item × PipeSys
  | 0, sys => (none, sys)
  | fuel + 1, sys =>
    if sys.final.isSome then (sys.final, sys)
    else
      match sys.pipes_pending with
      | [] => (none, sys)
      | other :: pending =>
        let sys := { sys with pipes_pending := pending }
        match alookup sys.chans other with
        | none => (none, sys)
        | some c =>
          match Channel_next_raw c sys.supply with
          | (none, c) =>
            let sys := { sys with chans := assocSet sys.chans other c,
                                  supply := sys.supply + 1 }
            let idTok := sys.supply
            let sys := { sys with pipes := assocSet sys.pipes other (some idTok),
                                  supply := sys.supply + 1 }
            let cbTok := sys.supply
            let add := add_message_callback c.reg cbTok
            let sys := { sys with chans := assocSet sys.chans other { c with reg := add.reg },
                                  supply := sys.supply + 1 }
            let sys := if add.fired_now then pipe_callback sys other else sys
            if (alookup sys.pipes other).getD none = some idTok then
              sys_next_raw_loop fuel
                { sys with pipes := assocSet sys.pipes other add.handle }
            else
              let c := (alookup sys.chans other).getD ChannelState.fresh
              let c := { c with reg := discard_message_callback c.reg add.handle }
              sys_next_raw_loop fuel { sys with chans := assocSet sys.chans other c }
          | (some it, c) =>
            let sys := { sys with chans := assocSet sys.chans other c,
                                  supply := sys.supply + 1 }
            if it.final then
              let callback := (alookup sys.pipes other).getD none
              let sys := { sys with pipes := aremove sys.pipes other }
              let c2 := (alookup sys.chans other).getD ChannelState.fresh
              let c2 := { c2 with reg := discard_message_callback c2.reg callback }
              let sys := { sys with chans := assocSet sys.chans other c2 }
              if !it.throw then
                (some ⟨false, true, [.finishedType, .finishedExc it.args, .noneV]⟩, sys)
              else
                (some ⟨false, it.throw, it.args⟩, sys)
            else
              let sys := { sys with pipes_pending := sys.pipes_pending ++ [other] }
              (some ⟨false, it.throw, it.args⟩, sys)

/-- `Reg.next_raw` as inherited by the pipe-set. -/
def sys_next_raw (sys : PipeSys) : Option Item × PipeSys :=
  match sys.reg._id with
  | none => (none, sys)
  | some tok =>
    match sys_next_raw_loop (sys.pipes_pending.length + 1) sys with
    | (none, sys1) =>
      if sys1.reg._id = some tok
      then (none, { sys1 with reg := { sys1.reg with _id := none } })
      else (none, sys1)
    | (some it, sys1) =>
      if it.final then
        let reg := { sys1.reg with _result := some (it.throw, it.args) }
        let reg := if reg._id = none then { reg with _id := some sys1.supply } else reg
        (some it, { sys1 with reg := reg, supply := sys1.supply + 1 })
      else (some it, sys1)

/-- A pipe-set with two fresh upstream channels `A = 1` and `B = 2`,
both piped in (`_pipe(A); _pipe(B)`). -/
def c6_sys : PipeSys :=
  pipe_add (pipe_add
    { chans := [(1, ChannelState.fresh), (2, ChannelState.fresh)],
      pipes := [], pipes_pending := [], final := none,
      reg := RegState.fresh, supply := 100 } 1) 2

/-- Schedule A for C6: `A.send(11); B.send(21); A.send(12)` and only
then three reads. -/
def c6A_sent : PipeSys :=
  sys_send (sys_send (sys_send c6_sys 1 [.int 11]) 2 [.int 21]) 1 [.int 12]
def c6A_r1 : Option Item × PipeSys := sys_next_raw c6A_sent
def c6A_r2 : Option Item × PipeSys := sys_next_raw c6A_r1.2
def c6A_r3 : Option Item × PipeSys := sys_next_raw c6A_r2.2

/-- Schedule B for C6: the reader drains to None (arming callbacks)
around each send: drain; `A.send(11)`; read; drain; `B.send(21)`; read;
drain; `A.send(12)`; read. -/
def c6B_d0 : Option Item × PipeSys := sys_next_raw c6_sys
def c6B_r1 : Option Item × PipeSys := sys_next_raw (sys_send c6B_d0.2 1 [.int 11])
def c6B_d1 : Option Item × PipeSys := sys_next_raw c6B_r1.2
def c6B_r2 : Option Item × PipeSys := sys_next_raw (sys_send c6B_d1.2 2 [.int 21])
def c6B_d2 : Option Item × PipeSys := sys_next_raw c6B_r2.2
def c6B_r3 : Option Item × PipeSys := sys_next_raw (sys_send c6B_d2.2 1 [.int 12])

/-- Setting a key makes it looked up. -/
theorem alookup_assocSet {α : Type} (l : List (Nat × α)) (k : Nat) (v : α) :
    alookup (assocSet l k v) k = some v := by
  induction l with
  | nil => simp [assocSet, alookup]
  | cons kv rest ih =>
    obtain ⟨k', v'⟩ := kv
    by_cases h : k' = k
    · simp [assocSet, alookup, h]
    · simp [assocSet, alookup, h, ih]

/-- Removing a key makes its lookup fail. -/
theorem alookup_aremove {α : Type} (l : List (Nat × α)) (k : Nat) :
    alookup (aremove l k) k = none := by
  induction l with
  | nil => simp [aremove, alookup]
  | cons kv rest ih =>
    obtain ⟨k', v'⟩ := kv
    by_cases h : k' = k
    · simpa [aremove, h] using ih
    · simpa [aremove, alookup, h] using ih

/-- C6: for a pipe-set over upstream channels `A` and `B`, with `A`
sending `11`, then `B` sending `21`, then `A` sending `12`, the reader
observes exactly `11, 21, 12` in that order — both when all three reads
happen after the sends (schedule A) and when the reader drains to None
(re-arming the upstream callbacks) around each send (schedule B):
fan-in follows the FIFO order of arrival into the pending queue. -/
theorem C6_pipe_set_fifo_fan_in :
    (c6A_r1.1 = some ⟨false, false, [.int 11]⟩ ∧
     c6A_r2.1 = some ⟨false, false, [.int 21]⟩ ∧
     c6A_r3.1 = some ⟨false, false, [.int 12]⟩) ∧
    (c6B_d0.1 = none ∧
     c6B_r1.1 = some ⟨false, false, [.int 11]⟩ ∧
     c6B_d1.1 = none ∧
     c6B_r2.1 = some ⟨false, false, [.int 21]⟩ ∧
     c6B_d2.1 = none ∧
     c6B_r3.1 = some ⟨false, false, [.int 12]⟩) :=
  ⟨⟨rfl, rfl, rfl⟩, rfl, rfl, rfl, rfl, rfl, rfl⟩

/-- C3: when `_Pipeable._next_raw` reads a terminal item from the head
pending upstream, it removes that upstream (with its parked callback)
from the `pipes` mapping, discards the callback from the upstream,
does not re-enqueue the upstream, leaves the pipe-set's own `final`
latch untouched (so the pipe-set does not finalize), and returns an
item with `final=False`: a successful terminal (`throw=False`) is
rewritten to `throw=True` with args `(Finished, Finished(*args), None)`
built from the terminal's args, while a failure passes its args
through. -/
theorem C3_pipe_set_rewrites_terminal (sys : PipeSys) (other : Nat) (rest : List Nat)
    (c c' : ChannelState) (it : Item) (fuel : Nat)
    (hfin : sys.final = none)
    (hpend : sys.pipes_pending = other :: rest)
    (hchan : alookup sys.chans other = some c)
    (hread : Channel_next_raw c sys.supply = (some it, c'))
    (hfinal : it.final = true) :
    (sys_next_raw_loop (fuel + 1) sys).1 =
      some ⟨false, true,
        if it.throw then it.args
        else [.finishedType, .finishedExc it.args, .noneV]⟩ ∧
    alookup (sys_next_raw_loop (fuel + 1) sys).2.pipes other = none ∧
    (sys_next_raw_loop (fuel + 1) sys).2.final = none ∧
    (sys_next_raw_loop (fuel + 1) sys).2.pipes_pending = rest ∧
    (∀ cb, (alookup sys.pipes other).getD none = some cb →
      cb ∉ ((alookup (sys_next_raw_loop (fuel + 1) sys).2.chans other).getD
        ChannelState.fresh).reg.message_callbacks) := by
  have hloop :
      sys_next_raw_loop (fuel + 1) sys =
        (some ⟨false, true,
          if it.throw then it.args
          else [.finishedType, .finishedExc it.args, .noneV]⟩,
         { sys with
             pipes_pending := rest,
             pipes := aremove sys.pipes other,
             chans := assocSet (assocSet sys.chans other c') other
               ({ ((alookup (assocSet sys.chans other c') other).getD ChannelState.fresh) with
                   reg := discard_message_callback
                     ((alookup (assocSet sys.chans other c') other).getD ChannelState.fresh).reg
                     ((alookup sys.pipes other).getD none) }),
             supply := sys.supply + 1 }) := by
    rw [sys_next_raw_loop]
    simp only [hfin, Option.isSome_none, Bool.false_eq_true, if_false, hpend]
    simp only [hchan]
    simp only [hread]
    simp only [hfinal]
    by_cases hthrow : it.throw
    · simp [hthrow, hfin]
    · simp [hthrow, hfin]
  rw [hloop]
  refine ⟨rfl, ?_, hfin, rfl, ?_⟩
  · exact alookup_aremove sys.pipes other
  · intro cb hcb
    simp only [alookup_assocSet, Option.getD_some]
    rw [hcb]
    simp [discard_message_callback, List.mem_filter]

/-- A concrete pipe-set whose single upstream channel `1` holds a sticky
successful terminal `(True, False, (5,))`. -/
def c3_sys : PipeSys :=
  { chans := [(1, ⟨⟨some 0, none, [], []⟩, [⟨true, false, [.int 5]⟩]⟩)],
    pipes := [(1, none)], pipes_pending := [1], final := none,
    reg := ⟨some 1, none, [], []⟩, supply := 50 }

/-- C3 witness: reading the terminal of upstream `1` returns the
non-terminal `Finished`-marker rewrite and removes the upstream from the
mapping. -/
theorem C3_witness :
    (sys_next_raw_loop 1 c3_sys).1 =
      some ⟨false, true, [.finishedType, .finishedExc [.int 5], .noneV]⟩ ∧
    alookup (sys_next_raw_loop 1 c3_sys).2.pipes 1 = none := by
  have H := C3_pipe_set_rewrites_terminal c3_sys 1 []
    ⟨⟨some 0, none, [], []⟩, [⟨true, false, [.int 5]⟩]⟩
    ⟨⟨some 0, some (false, [.int 5]), [], []⟩, [⟨true, false, [.int 5]⟩]⟩
    ⟨true, false, [.int 5]⟩ 0 rfl rfl rfl rfl rfl
  exact ⟨by simpa using H.1, H.2.1⟩

/-- A Python exception as seen by `GeneratorStream._step`'s handlers:
`Finished` and `StopIteration` (both caught as normal termination,
carrying `exc.args`), or anything else (caught as a failure, carrying
`sys.exc_info()`). -/
inductive PyExc where
  | finished : List PyVal → PyExc
  | stopIteration : List PyVal → PyExc
  | other : List PyVal → PyExc

/-- The slice of a `GeneratorStream` (task) touched when it finishes:
the `Inner` pipe-set's `final` latch and `Reg` state, the task's own
`_Stackable` `final` latch and `Reg` state, the output channel, whether
`self._gen` is still set, and membership in `_running_streams`. -/
structure GenTaskState where
  inner_final : Option Item
  inner_reg : RegState
  stack_final : Option Item
  task_reg : RegState
  output : ChannelState
  gen_alive : Bool
  in_running : Bool

/-- `Inner.finish(*values)`: the body is exactly `raise Finished(*values)`
— no state is read or written, the exception is raised in the caller's
frame.  The pair returned is (unchanged state, raised exception). -/
def Inner_finish (ts : GenTaskState) (values : List PyVal) : GenTaskState × PyExc :=
  (ts, .finished values)

/-- `_Stackable._finish`: latch the terminal unless already latched,
then signal activity with the result. -/
def Stackable_finish (reg : RegState) (final : Option Item) (throwB : Bool)
    (args : List PyVal) (fresh : Nat) : RegState × Option Item :=
  if final.isSome then (reg, final)
  else ((signal_activity reg (some (throwB, args)) fresh).reg, some ⟨true, throwB, args⟩)

/-- `Inner._finish` (via `_Pipeable._finish`) followed by
`outer.inner_finish`: latch the inner pipe-set's terminal (a no-op when
already final), signal it, then latch the task's own `_Stackable`
terminal and close the output channel with the same result (`throw` or
`finish`). -/
def Inner__finish (ts : GenTaskState) (throwB : Bool) (args : List PyVal)
    (f1 f2 f3 : Nat) : GenTaskState :=
  if ts.inner_final.isSome then ts
  else
    let ts := { ts with
      inner_final := some ⟨true, throwB, args⟩,
      inner_reg := (signal_activity ts.inner_reg (some (throwB, args)) f1).reg }
    let (treg, tfin) := Stackable_finish ts.task_reg ts.stack_final throwB args f2
    let ts := { ts with task_reg := treg, stack_final := tfin }
    if throwB then { ts with output := (Channel_throw ts.output args f3).chan }
    else { ts with output := (Channel_finish ts.output args f3).chan }

/-- `GeneratorStream._end`: drop the generator, leave the running set,
and finish the inner pipe-set (which cascades into the task terminal
and the output channel). -/
def GeneratorStream_end (ts : GenTaskState) (throwB : Bool) (args : List PyVal)
    (f1 f2 f3 : Nat) : GenTaskState :=
  Inner__finish { ts with gen_alive := false, in_running := false } throwB args f1 f2 f3

/-- How the user coroutine reacts when `_step` resumes it: it yields a
new source, or it raises. -/
inductive GenReact where
  | yields : GenReact
  | raises : PyExc → GenReact

/-- `GeneratorStream._step` around the coroutine resume: with no item
from the source it re-arms a callback and returns unchanged; with an
item it resumes the coroutine; `StopIteration`/`Finished` escaping the
coroutine end the task with a success carrying the exception's args,
any other exception ends it with a failure, and a yield leaves the task
running (a callback is armed on the yielded source). -/
def GeneratorStream_step (ts : GenTaskState) (item : Option Item) (react : GenReact)
    (f1 f2 f3 : Nat) : GenTaskState :=
  match item with
  | none => ts
  | some _ =>
    match react with
    | .yields => ts
    | .raises (.stopIteration args) => GeneratorStream_end ts false args f1 f2 f3
    | .raises (.finished args) => GeneratorStream_end ts false args f1 f2 f3
    | .raises (.other info) => GeneratorStream_end ts true info f1 f2 f3

/-- C10: `inner.finish(values)` never latches the task's terminal nor
touches its output — it returns the caller's state unchanged and raises
`Finished(values)` into the caller's frame, whoever that is (so a call
from outside the coroutine just raises there); the task transitions to
DONE with a success result carrying those args exactly when that
`Finished` propagates out of the coroutine and is caught by `_step`,
which then latches the inner and task terminals and finishes the output
channel; a step in which the coroutine merely yields changes nothing. -/
theorem C10_inner_finish_raises_only (ts : GenTaskState) (values : List PyVal)
    (hfin : ts.inner_final = none) (hsfin : ts.stack_final = none) :
    (Inner_finish ts values = (ts, .finished values)) ∧
    (∀ it f1 f2 f3,
      (GeneratorStream_step ts (some it) (.raises (.finished values)) f1 f2 f3).inner_final
        = some ⟨true, false, values⟩ ∧
      (GeneratorStream_step ts (some it) (.raises (.finished values)) f1 f2 f3).task_reg._result
        = some (false, values) ∧
      (GeneratorStream_step ts (some it) (.raises (.finished values)) f1 f2 f3).gen_alive
        = false) ∧
    (∀ it f1 f2 f3, GeneratorStream_step ts (some it) .yields f1 f2 f3 = ts) ∧
    (∀ f1 f2 f3, GeneratorStream_step ts none .yields f1 f2 f3 = ts) := by
  refine ⟨rfl, ?_, fun it f1 f2 f3 => rfl, fun f1 f2 f3 => rfl⟩
  intro it f1 f2 f3
  simp [GeneratorStream_step, GeneratorStream_end, Inner__finish, Stackable_finish,
    signal_activity, hfin, hsfin]

/-- C10 witness: at a concrete running task state, `inner.finish`
returns the state unchanged with a raised `Finished`, and the
dispatcher's step on that escaping `Finished` latches the terminal. -/
theorem C10_witness :
    Inner_finish
      ⟨none, RegState.fresh, none, RegState.fresh, ChannelState.fresh, true, true⟩ [.int 7]
      = (⟨none, RegState.fresh, none, RegState.fresh, ChannelState.fresh, true, true⟩,
         .finished [.int 7]) ∧
    (GeneratorStream_step
      ⟨none, RegState.fresh, none, RegState.fresh, ChannelState.fresh, true, true⟩
      (some ⟨false, false, []⟩) (.raises (.finished [.int 7])) 1 2 3).task_reg._result
      = some (false, [.int 7]) := by
  have H := C10_inner_finish_raises_only
    ⟨none, RegState.fresh, none, RegState.fresh, ChannelState.fresh, true, true⟩
    [.int 7] rfl rfl
  exact ⟨H.1, (H.2.1 ⟨false, false, []⟩ 1 2 3).2.1⟩

/-- C9 witness: four leaf streams produce the balanced two-level tree,
within the logarithmic depth bound. -/
theorem C9_witness :
    pipe_comb (.leaf 0) [.leaf 1, .leaf 2, .leaf 3] =
      .pair (.pair (.leaf 0) (.leaf 1)) (.pair (.leaf 2) (.leaf 3)) ∧
    (pipe_comb (.leaf 0) [.leaf 1, .leaf 2, .leaf 3]).depth ≤ Nat.clog 2 4 :=
  ⟨C9_pipe_balanced_tree.2.1 (.leaf 0) (.leaf 1) (.leaf 2) (.leaf 3),
   C9_pipe_balanced_tree.2.2 (.leaf 0) [.leaf 1, .leaf 2, .leaf 3]
     (by intro t ht; fin_cases ht <;> rfl)⟩

/-- An `Any` combinator over a store of source channels: `callbacks` is
`self._callbacks` (source ↦ registration handle, set to None once a
source has won), `final` is `self._final`, `reg` the Any's own `Reg`
state. The callbacks registered on sources are
`(callqueue.add, self._callback)`, so firing one — synchronously at
registration or on a later activity signal — appends a pending
`_callback(source)` thunk to the call queue, modelled by `queue`. -/
structure AnySys where
  chans : List (Nat × ChannelState)
  callbacks : Option (List (Nat × Option Nat))
  include_source : Bool
  final : Option Item
  reg : RegState
  queue : List Nat
  supply : Nat

/-- `Any._init(sources)`: register `(callqueue.add, self._callback)` on
every source, in the given iteration order, recording each returned
handle. -/
def any_init (sys : AnySys) (order : List Nat) : AnySys :=
  order.foldl (fun sys src =>
    match alookup sys.chans src with
    | none => sys
    | some c =>
      let add := add_message_callback c.reg sys.supply
      let sys := { sys with chans := assocSet sys.chans src { c with reg := add.reg },
                            supply := sys.supply + 1 }
      let sys := if add.fired_now then { sys with queue := sys.queue ++ [src] } else sys
      { sys with callbacks := sys.callbacks.map (fun cbs => assocSet cbs src add.handle) })
    sys

/-- One step of the loser-discard loop of `Any._callback`: skip the
winner, discard the recorded handle from any other source. -/
def any_discard_step (src : Nat) (s : AnySys) (kv : Nat × Option Nat) : AnySys :=
  if kv.1 = src then s
  else
    match alookup s.chans kv.1 with
    | none => s
    | some oc =>
      let oc := { oc with reg := discard_message_callback oc.reg kv.2 }
      { s with chans := assocSet s.chans kv.1 oc }

/-- The loser-discard loop of `Any._callback`: for every registered
source other than the winner, discard its callback handle from it. -/
def any_discard_losers (src : Nat) (cbs : List (Nat × Option Nat)) (sys : AnySys) : AnySys :=
  cbs.foldl (any_discard_step src) sys

/-- `Any._callback(source)`: a no-op once a winner has been latched;
otherwise read the source — on None re-register and return, on an item
latch the winner: drop the callback table, discard every other source's
callback, prefix the value with the winning source when
`include_source` is set and the item is not a failure, latch `_final`,
and signal activity with the result. -/
def any_callback (sys : AnySys) (src : Nat) : AnySys :=
  match sys.callbacks with
  | none => sys
  | some cbs =>
    match alookup sys.chans src with
    | none => sys
    | some c =>
      match Channel_next_raw c sys.supply with
      | (none, c) =>
        let sys := { sys with chans := assocSet sys.chans src c,
                              supply := sys.supply + 1 }
        let add := add_message_callback c.reg sys.supply
        let sys := { sys with chans := assocSet sys.chans src { c with reg := add.reg },
                              supply := sys.supply + 1 }
        let sys := if add.fired_now then { sys with queue := sys.queue ++ [src] } else sys
        { sys with callbacks := some (assocSet cbs src add.handle) }
      | (some it, c) =>
        let sys := { sys with chans := assocSet sys.chans src c,
                              supply := sys.supply + 1 }
        let sys := { sys with callbacks := none }
        let sys := any_discard_losers src cbs sys
        let args := if !it.throw && sys.include_source
                    then [.streamRef src, peel_args it.args] else it.args
        { sys with final := some ⟨true, it.throw, args⟩,
                   reg := (signal_activity sys.reg (some (it.throw, args)) sys.supply).reg,
                   supply := sys.supply + 1 }

/-- Drain the call queue, invoking each pending `_callback(source)`
thunk in FIFO order (with fuel, since a re-registration can enqueue
again). -/
def any_run_queue : Nat → AnySys → AnySys
  | 0, sys => sys
  | fuel + 1, sys =>
    match sys.queue with
    | [] => sys
    | src :: rest => any_run_queue fuel (any_callback { sys with queue := rest } src)

/-- `Channel.send` on source `i` of an `Any` system: every drained
message callback enqueues a `_callback(i)` thunk. -/
def any_send (sys : AnySys) (i : Nat) (values : List PyVal) : AnySys :=
  match alookup sys.chans i with
  | none => sys
  | some c =>
    let out := Channel_send c values sys.supply
    let sys := { sys with chans := assocSet sys.chans i out.chan,
                          supply := sys.supply + 1 }
    { sys with queue := sys.queue ++ out.fired_msg.map (fun _ => i) }

/-- The scenario `s1 = Channel(); s2 = Channel(); s2.send(42);
any(s1, s2)` (so `include_source = True`), before `_init` runs. -/
def c7_sys0 : AnySys :=
  { chans := [(1, ChannelState.fresh), (2, (Channel_send ChannelState.fresh [.int 42] 0).chan)],
    callbacks := some [], include_source := true, final := none,
    reg := RegState.fresh, queue := [], supply := 10 }

/-- `_init` iterating the source set as `{s1, s2}`, then the call queue
drained. -/
def c7_init12 : AnySys := any_init c7_sys0 [1, 2]
def c7_won12 : AnySys := any_run_queue 4 c7_init12

/-- `_init` iterating the source set as `{s2, s1}`, then the call queue
drained. -/
def c7_won21 : AnySys := any_run_queue 4 (any_init c7_sys0 [2, 1])

/-- A later `s1.send(0)` after the winner latched, call queue drained. -/
def c7_after_send : AnySys := any_run_queue 4 (any_send c7_won12 1 [.int 0])

/-- Setting one key leaves other keys' lookups unchanged. -/
theorem alookup_assocSet_ne {α : Type} (l : List (Nat × α)) (k' k : Nat) (v : α)
    (h : k' ≠ k) : alookup (assocSet l k' v) k = alookup l k := by
  induction l with
  | nil => simp [assocSet, alookup, h]
  | cons kv rest ih =>
    obtain ⟨k0, v0⟩ := kv
    by_cases h0 : k0 = k'
    · subst h0
      simp [assocSet, alookup, h]
    · simp [assocSet, alookup, h0, ih]

/-- The loser-discard loop only rewrites the `chans` store. -/
theorem any_discard_losers_fields (src : Nat) (cbs : List (Nat × Option Nat)) (sys : AnySys) :
    (any_discard_losers src cbs sys).callbacks = sys.callbacks ∧
    (any_discard_losers src cbs sys).include_source = sys.include_source ∧
    (any_discard_losers src cbs sys).final = sys.final ∧
    (any_discard_losers src cbs sys).reg = sys.reg ∧
    (any_discard_losers src cbs sys).queue = sys.queue ∧
    (any_discard_losers src cbs sys).supply = sys.supply := by
  induction cbs generalizing sys with
  | nil => exact ⟨rfl, rfl, rfl, rfl, rfl, rfl⟩
  | cons kv rest ih =>
    have hstep : any_discard_losers src (kv :: rest) sys =
        any_discard_losers src rest (any_discard_step src sys kv) := rfl
    rw [hstep]
    have hfields :
        (any_discard_step src sys kv).callbacks = sys.callbacks ∧
        (any_discard_step src sys kv).include_source = sys.include_source ∧
        (any_discard_step src sys kv).final = sys.final ∧
        (any_discard_step src sys kv).reg = sys.reg ∧
        (any_discard_step src sys kv).queue = sys.queue ∧
        (any_discard_step src sys kv).supply = sys.supply := by
      unfold any_discard_step
      by_cases hk : kv.1 = src
      · simp [hk]
      · simp only [hk, if_false]
        rcases halo : alookup sys.chans kv.1 with _ | oc <;> simp [halo]
    obtain ⟨h1, h2, h3, h4, h5, h6⟩ := hfields
    obtain ⟨g1, g2, g3, g4, g5, g6⟩ := ih (any_discard_step src sys kv)
    exact ⟨g1.trans h1, g2.trans h2, g3.trans h3, g4.trans h4, g5.trans h5, g6.trans h6⟩

/-- Keys not reached by the loser-discard loop keep their channel. -/
theorem any_discard_losers_chans_other (src k : Nat) (cbs : List (Nat × Option Nat))
    (sys : AnySys) (hk : k ∉ cbs.map Prod.fst) :
    alookup (any_discard_losers src cbs sys).chans k = alookup sys.chans k := by
  induction cbs generalizing sys with
  | nil => rfl
  | cons kv rest ih =>
    obtain ⟨k', v⟩ := kv
    simp only [List.map_cons, List.mem_cons] at hk
    push_neg at hk
    have hstep : any_discard_losers src ((k', v) :: rest) sys =
        any_discard_losers src rest (any_discard_step src sys (k', v)) := rfl
    rw [hstep, ih (any_discard_step src sys (k', v)) hk.2]
    unfold any_discard_step
    by_cases hcase : k' = src
    · simp [hcase]
    · simp only [hcase, if_false]
      rcases halo : alookup sys.chans k' with _ | oc
      · rfl
      · exact alookup_assocSet_ne _ _ _ _ (fun h => hk.1 h.symm)

/-- After the loser-discard loop, a handle registered for any loser is
gone from that loser's message callbacks. -/
theorem any_discard_losers_not_mem (src : Nat) (cbs : List (Nat × Option Nat))
    (sys : AnySys) (hnodup : (cbs.map Prod.fst).Nodup) :
    ∀ other h, (other, some h) ∈ cbs → other ≠ src →
      h ∉ ((alookup (any_discard_losers src cbs sys).chans other).getD
        ChannelState.fresh).reg.message_callbacks := by
  induction cbs generalizing sys with
  | nil =>
    intro other h hmem
    simp at hmem
  | cons kv rest ih =>
    obtain ⟨k', v⟩ := kv
    intro other h hmem hne
    have hstep : any_discard_losers src ((k', v) :: rest) sys =
        any_discard_losers src rest (any_discard_step src sys (k', v)) := rfl
    rw [hstep]
    rcases List.mem_cons.mp hmem with heq | hmem'
    · have hk1 : other = k' := congrArg Prod.fst heq
      have hk2 : some h = v := congrArg Prod.snd heq
      subst hk1
      subst hk2
      have hnotin : other ∉ rest.map Prod.fst := by
        simpa using (List.nodup_cons.mp hnodup).1
      rw [any_discard_losers_chans_other src other rest _ hnotin]
      unfold any_discard_step
      simp only [hne, if_false]
      rcases halo : alookup sys.chans other with _ | oc
      · simp [halo, ChannelState.fresh, RegState.fresh]
      · simp [halo, alookup_assocSet, discard_message_callback, List.mem_filter]
    · exact ih _ (List.nodup_cons.mp hnodup).2 other h hmem' hne

/-- A push on a channel with no registered message callbacks fires no
message callbacks. -/
theorem Channel_send_no_callbacks (c : ChannelState) (v : List PyVal) (f : Nat)
    (h : c.reg.message_callbacks = []) : (Channel_send c v f).fired_msg = [] := by
  simp only [Channel_send, Channel_push]
  split
  · rfl
  · split
    · simp [signal_activity, h]
    · split
      · simp [signal_activity, h]
      · rfl

/-- C7: the first source whose `_callback` finds an item determines the
Any's terminal: `_callback` latches `(throw, args)` (prefixing the
winning source and peeling the value when `include_source` is set and
the item is not a failure), drops the callback table, and discards the
message callbacks registered on every other source; once the table is
dropped any further `_callback` is a no-op, and a send on a source with
no registered callbacks changes nothing observable on the Any; in the
scenario `s2.send(42); any(s1, s2)` (either set-iteration order) the
Any finalizes with `(s2, 42)` and a later `s1.send(0)` has no effect. -/
theorem C7_any_first_wins (sys : AnySys) (src : Nat) (cbs : List (Nat × Option Nat))
    (c c' : ChannelState) (it : Item)
    (hcb : sys.callbacks = some cbs)
    (hkeys : (cbs.map Prod.fst).Nodup)
    (hchan : alookup sys.chans src = some c)
    (hread : Channel_next_raw c sys.supply = (some it, c')) :
    ((any_callback sys src).final =
        some ⟨true, it.throw,
          if !it.throw && sys.include_source then [.streamRef src, peel_args it.args]
          else it.args⟩ ∧
     (any_callback sys src).callbacks = none ∧
     (any_callback sys src).reg._result =
        some (it.throw,
          if !it.throw && sys.include_source then [.streamRef src, peel_args it.args]
          else it.args) ∧
     (∀ other h, (other, some h) ∈ cbs → other ≠ src →
        h ∉ ((alookup (any_callback sys src).chans other).getD
          ChannelState.fresh).reg.message_callbacks)) ∧
    (∀ (s2 : AnySys) (j : Nat), s2.callbacks = none → any_callback s2 j = s2) ∧
    (∀ (s2 : AnySys) (i : Nat) (v : List PyVal),
       ((alookup s2.chans i).getD ChannelState.fresh).reg.message_callbacks = [] →
       (any_send s2 i v).final = s2.final ∧ (any_send s2 i v).callbacks = s2.callbacks ∧
       (any_send s2 i v).reg = s2.reg ∧ (any_send s2 i v).queue = s2.queue) ∧
    (c7_won12.final = some ⟨true, false, [.streamRef 2, .int 42]⟩ ∧
     c7_won21.final = some ⟨true, false, [.streamRef 2, .int 42]⟩ ∧
     c7_after_send.final = some ⟨true, false, [.streamRef 2, .int 42]⟩ ∧
     c7_after_send.reg._result = c7_won12.reg._result ∧
     c7_after_send.callbacks = none) := by
  have hwin : any_callback sys src =
      (let sysD := any_discard_losers src cbs
        { sys with chans := assocSet sys.chans src c',
                   callbacks := none, supply := sys.supply + 1 }
       let args := if !it.throw && sysD.include_source
                   then [PyVal.streamRef src, peel_args it.args] else it.args
       { sysD with final := some ⟨true, it.throw, args⟩,
                   reg := (signal_activity sysD.reg (some (it.throw, args)) sysD.supply).reg,
                   supply := sysD.supply + 1 }) := by
    unfold any_callback
    simp only [hcb]
    simp only [hchan]
    simp only [hread]
  obtain ⟨f1, f2, f3, f4, f5, f6⟩ := any_discard_losers_fields src cbs
    { sys with chans := assocSet sys.chans src c',
               callbacks := none, supply := sys.supply + 1 }
  refine ⟨⟨?_, ?_, ?_, ?_⟩, ?_, ?_, rfl, rfl, rfl, rfl, rfl⟩
  · rw [hwin]
    dsimp only
    rw [f2]
  · rw [hwin]
    dsimp only
    rw [f1]
  · rw [hwin]
    dsimp only
    rw [f2]
    simp [signal_activity]
  · intro other h hmem hne
    rw [hwin]
    dsimp only
    exact any_discard_losers_not_mem src cbs _ hkeys other h hmem hne
  · intro s2 j h
    unfold any_callback
    simp [h]
  · intro s2 i v h
    unfold any_send
    rcases halo : alookup s2.chans i with _ | c0
    · exact ⟨rfl, rfl, rfl, rfl⟩
    · have hzero : c0.reg.message_callbacks = [] := by simpa [halo] using h
      have hfired := Channel_send_no_callbacks c0 v s2.supply hzero
      simp [hfired]

/-- C7 witness: in the `s2.send(42); any(s1, s2)` scenario, running the
pending `_callback(s2)` latches `(s2, 42)` and removes the handle
registered on `s1`. -/
theorem C7_witness :
    (any_callback c7_init12 2).final = some ⟨true, false, [.streamRef 2, .int 42]⟩ ∧
    (10 : Nat) ∉ ((alookup (any_callback c7_init12 2).chans 1).getD
      ChannelState.fresh).reg.message_callbacks := by
  have H := C7_any_first_wins c7_init12 2 [(1, some 10), (2, none)]
    ⟨⟨some 0, none, [], []⟩, [⟨false, false, [.int 42]⟩]⟩
    ⟨⟨some 0, none, [], []⟩, []⟩
    ⟨false, false, [.int 42]⟩ rfl (by decide) rfl rfl
  exact ⟨by simpa using H.1.1, H.1.2.2.2 1 10 (by decide) (by decide)⟩

end Threado
